import Mathlib

/-!
The session loop, the accept loop and the backend pool callbacks of mrproxy.

A shallow embedding of `mrproxy/main.go`.  The program is a thin driver around
external collaborators (the memcache frame codec, the command translator, the
redis connection pool, the sockets).  Every collaborator is represented by what
the driver can observe of it:

* a call the driver makes is recorded as an event of a trace, in program order;
* a value a collaborator hands back is either computed by a function supplied
  as a parameter (`Collab`, `Net`, `Redis`) or read from a script of outcomes
  (`Cycle`, `AcceptResult`).

The driver's own control flow (`processMc`, the `for` loop of `main`, the two
closures built by `newConnPool`, `dial`) is translated statement by statement.
A worker started by the accept loop on a nil connection panics; the panic is
not recovered anywhere and is represented as the end of the process.
-/

namespace Mrproxy

/-! ## Go errors -/

/-- A non-nil Go `error` value as the driver distinguishes it: the type
assertion `err.(protocol.ProtocolError)` either succeeds or not. -/
inductive GoError where
  | protocolError (msg : String)
  | other (msg : String)
  deriving DecidableEq, Repr

/-- The `Error()` method. -/
def GoError.Error : GoError → String
  | .protocolError msg => msg
  | .other msg => msg

/-! ## Requests -/

/-- Modelled from the spec: the `protocol.McRequest` type declaration is not part
of the sources; the fields are those of the Request of the data model.  The
driver reads `Noreply` only. -/
structure McRequest where
  Command : String
  Key : String
  Flags : Nat
  ExpirySeconds : Int
  DataLength : Nat
  Data : List Nat
  Noreply : Bool
  deriving DecidableEq, Repr

/-! ## The session loop `processMc` -/

/-- The collaborators of one session.  `π` is the state of the pool, `κ` a
backend connection, `σ` the state of the backend, `ρ` a translator response.

* `Get` is `pool.Get()`;
* `Close` is `conn.Close()` on the borrowed connection;
* `Process` is `proxy.Process(req)` of the proxy built over the connection by
  `stats.NewStatsProxy(proxy.NewRedisProxy(conn))`: it has one result, the
  response, and acts on the backend;
* `Protocol` is `res.Protocol()`. -/
structure Collab (π κ σ ρ : Type) where
  Get : π → κ × π
  Close : κ → π → π
  Process : κ → σ → McRequest → ρ × σ
  Protocol : ρ → String

/-- What the environment answers during one iteration of the loop: the two
results of `protocol.ReadRequest(br)`, and the error results of
`bw.WriteString` and `bw.Flush` should the iteration call them. -/
structure Cycle where
  req : McRequest
  err : Option GoError
  wres : Option GoError
  fres : Option GoError
  deriving DecidableEq, Repr

/-- The calls `processMc` makes, in program order. -/
inductive Event (κ : Type) where
  | statsConnect
  | poolGet (conn : κ)
  | readRequest
  | logProtocolErr (err : GoError)
  | logReadErr (err : GoError)
  | writeString (s : String) (res : Option GoError)
  | flush (res : Option GoError)
  | process (conn : κ) (req : McRequest)
  | connClose (conn : κ)
  | statsDisconnect
  | clientClose
  | logEnd
  deriving DecidableEq, Repr

/-- Result of running the `for` loop against a script. `returned` is true when
the loop executed its `return`; it is false when the script ran out, that is the
loop is back at `ReadRequest`. -/
structure LoopResult (κ σ : Type) where
  trace : List (Event κ)
  backend : σ
  returned : Bool

/-- One iteration of the `for` loop of `processMc`: the events, the backend
state afterwards, and whether the iteration left the loop by `return`. -/
def loopBody {π κ σ ρ : Type} (P : Collab π κ σ ρ) (conn : κ) (cy : Cycle) (s : σ) :
    List (Event κ) × σ × Bool :=
  match cy.err with
  | some (.protocolError msg) =>
    ([.readRequest, .logProtocolErr (.protocolError msg),
      .writeString ("CLIENT_ERROR " ++ (GoError.protocolError msg).Error ++ "\r\n") cy.wres,
      .flush cy.fres], s, false)
  | some e => ([.readRequest, .logReadErr e], s, true)
  | none =>
    let res := P.Process conn s cy.req
    if !cy.req.Noreply then
      ([.readRequest, .process conn cy.req,
        .writeString (P.Protocol res.1) cy.wres, .flush cy.fres], res.2, false)
    else
      ([.readRequest, .process conn cy.req], res.2, false)

/-- The `for` loop of `processMc`, run against the outcomes of `script`. -/
def loop {π κ σ ρ : Type} (P : Collab π κ σ ρ) (conn : κ) :
    List Cycle → σ → LoopResult κ σ
  | [], s => { trace := [], backend := s, returned := false }
  | cy :: rest, s =>
    match loopBody P conn cy s with
    | (evs, s1, true) => { trace := evs, backend := s1, returned := true }
    | (evs, s1, false) =>
      let r := loop P conn rest s1
      { trace := evs ++ r.trace, backend := r.backend, returned := r.returned }

/-- State of a session after `processMc` consumed a script. -/
structure Session (π κ σ : Type) where
  trace : List (Event κ)
  pool : π
  backend : σ
  returned : Bool

/-- The function `processMc(c, pool)` on a client connection `c` that is not
nil: `stats.Connect()`, `pool.Get()`, the loop, and on `return` the deferred
calls in reverse order of their `defer`: `conn.Close()`, `stats.Disconnect()`,
`c.Close()`, the final log line.  What the two leading `defer` statements do on
a nil `c` is `processMcDefers`. -/
def processMc {π κ σ ρ : Type} (P : Collab π κ σ ρ) (pool : π) (s : σ) (script : List Cycle) :
    Session π κ σ :=
  let g := P.Get pool
  let conn := g.1
  let r := loop P conn script s
  if r.returned then
    { trace := [.statsConnect, .poolGet conn] ++ r.trace ++
        [.connClose conn, .statsDisconnect, .clientClose, .logEnd],
      pool := P.Close conn g.2, backend := r.backend, returned := true }
  else
    { trace := [.statsConnect, .poolGet conn] ++ r.trace,
      pool := g.2, backend := r.backend, returned := false }

/-! ## The accept loop of `main` -/

/-- The two results of `l.Accept()`: the connection value (`none` is Go's `nil`)
and the error. -/
structure AcceptResult (γ : Type) where
  c : Option γ
  err : Option GoError
  deriving DecidableEq, Repr

/-- The calls the accept loop makes, and what a worker it starts does to the
process before serving: the deferred log line of the worker and a run-time
panic. -/
inductive MainEvent (γ : Type) where
  | accept
  | logPrintln (err : GoError)
  | goProcessMc (c : Option γ)
  | workerLogEnd
  | panic
  deriving DecidableEq, Repr

/-- One iteration of the `for` loop of `main`: `Accept`, the log line under
`if err != nil`, then `go processMc(c, pool)`.  The body has no `break`,
`return` or `continue`. -/
def acceptBody {γ : Type} (r : AcceptResult γ) : List (MainEvent γ) :=
  match r.err with
  | some e => [.accept, .logPrintln e, .goProcessMc r.c]
  | none => [.accept, .goProcessMc r.c]

/-- The two leading statements of a worker `processMc(c, pool)`:
`defer log.Printf("%v end processMc", c)` and `defer c.Close()`.  On a nil `c`
the second one evaluates a method of a nil interface value, which is a run-time
panic: the log line already deferred runs, and the panic, which nothing in the
program recovers, ends the process.  On a connection both are only registered.
The result is the events and whether the worker panicked. -/
def processMcDefers {γ : Type} (c : Option γ) : List (MainEvent γ) × Bool :=
  match c with
  | none => ([.workerLogEnd, .panic], true)
  | some _ => ([], false)

/-- A run of the accept loop: the events, the iterations completed, and whether
the process was ended by a panic. -/
structure AcceptRun (γ : Type) where
  trace : List (MainEvent γ)
  iterations : Nat
  panicked : Bool
  deriving DecidableEq, Repr

/-- The `for` loop of `main` run against the outcomes of `Accept`, together with
the start of each worker it launches.  A worker is taken to run its two leading
`defer` statements before `Accept` returns again; when it panics the process is
over and no further outcome is consumed. -/
def mainAcceptLoop {γ : Type} : List (AcceptResult γ) → AcceptRun γ
  | [] => { trace := [], iterations := 0, panicked := false }
  | r :: rest =>
    match processMcDefers r.c with
    | (evs, true) => { trace := acceptBody r ++ evs, iterations := 1, panicked := true }
    | (evs, false) =>
      let t := mainAcceptLoop rest
      { trace := acceptBody r ++ evs ++ t.trace,
        iterations := t.iterations + 1,
        panicked := t.panicked }

/-- The connection values handed to `go processMc`, in order. -/
def workers {γ : Type} : List (MainEvent γ) → List (Option γ)
  | [] => []
  | .goProcessMc c :: t => c :: workers t
  | _ :: t => workers t

/-- The errors logged by the accept loop, in order. -/
def logged {γ : Type} : List (MainEvent γ) → List GoError
  | [] => []
  | .logPrintln e :: t => e :: logged t
  | _ :: t => logged t

/-! ## Durations -/

/-- The range of `time.Duration`, an `int64` count of nanoseconds. -/
def minDuration : Int := -(2 ^ 63)

/-- The largest `time.Duration`. -/
def maxDuration : Int := 2 ^ 63 - 1

/-- The constant `time.Second`. -/
def Second : Int := 1000000000

/-- The constant `time.Minute`. -/
def Minute : Int := 60 * Second

/-- Two's complement wrap of an integer to `int64`. -/
def wrapInt64 (x : Int) : Int := (x + 2 ^ 63) % 2 ^ 64 - 2 ^ 63

/-- The `Time.Sub` of two instants (nanosecond counts), which saturates at
both ends of the `Duration` range. -/
def timeSub (u t : Int) : Int :=
  if u - t > maxDuration then maxDuration
  else if u - t < minDuration then minDuration
  else u - t

/-- The call `time.Since(t)` when the clock reads `now`. -/
def timeSince (now t : Int) : Int := timeSub now t

/-! ## `dial` and `newConnPool` -/

/-- The `net` calls of `dial`. `α` is a resolved address, `τ` a TCP connection. -/
structure Net (α τ : Type) where
  ResolveTCPAddr : String → String → Except GoError α
  DialTCP : String → α → Except GoError τ
  SetKeepAlive : τ → Bool → Option GoError
  SetKeepAlivePeriod : τ → Int → Option GoError

/-- The `redis` calls of the pool callbacks. `Do` gives the error result of a
command; the reply is discarded by both callers. -/
structure Redis (τ κ : Type) where
  NewConn : τ → Int → Int → κ
  Do : κ → String → List String → Option GoError

/-- What the pool callbacks do to a backend connection. -/
inductive ConnEvent (κ : Type) where
  | cmd (c : κ) (name : String) (args : List String)
  | close (c : κ)
  deriving DecidableEq, Repr

/-- The function `dial(network, addr)`. -/
def dial {α τ : Type} (N : Net α τ) (network addr : String) : Except GoError τ :=
  match N.ResolveTCPAddr network addr with
  | .error err => .error err
  | .ok tcpAddr =>
    match N.DialTCP network tcpAddr with
    | .error err => .error err
    | .ok tc =>
      match N.SetKeepAlive tc true with
      | some err => .error err
      | none =>
        match N.SetKeepAlivePeriod tc (2 * Minute) with
        | some err => .error err
        | none => .ok tc

/-- The pool value built by `newConnPool`. `TestOnBorrow c t now` is the
callback applied to `(c, t)` when the clock reads `now`. -/
structure Pool (κ : Type) where
  MaxIdle : Int
  MaxActive : Int
  Dial : Unit → Except GoError κ × List (ConnEvent κ)
  TestOnBorrow : κ → Int → Int → Option GoError × List (ConnEvent κ)

/-- The function `newConnPool`. -/
def newConnPool {α τ κ : Type} (N : Net α τ) (R : Redis τ κ) (address password : String)
    (maxIdle maxConnections timeoutSeconds : Int) : Pool κ :=
  let timeout := wrapInt64 (timeoutSeconds * Second)
  { MaxIdle := maxIdle
    MaxActive := maxConnections
    Dial := fun _ =>
      match dial N "tcp" address with
      | .error err => (.error err, [])
      | .ok tc =>
        let c := R.NewConn tc timeout timeout
        if password != "" then
          match R.Do c "AUTH" [password] with
          | some err => (.error err, [.cmd c "AUTH" [password], .close c])
          | none => (.ok c, [.cmd c "AUTH" [password]])
        else
          (.ok c, [])
    TestOnBorrow := fun c t now =>
      if timeSince now t < Minute then (none, [])
      else
        let err := R.Do c "PING" []
        (err, [.cmd c "PING" []]) }

/-! ## Observations on a session trace -/

/-- The bytes handed to `bw.WriteString`, concatenated in order. -/
def clientBytes {κ : Type} : List (Event κ) → String
  | [] => ""
  | .writeString s _ :: t => s ++ clientBytes t
  | _ :: t => clientBytes t

/-- The `proxy.Process` calls, in order, each with the connection it runs on. -/
def processCalls {κ : Type} : List (Event κ) → List (κ × McRequest)
  | [] => []
  | .process c r :: t => (c, r) :: processCalls t
  | _ :: t => processCalls t

/-- The connections obtained by `pool.Get()`, in order. -/
def poolGets {κ : Type} : List (Event κ) → List κ
  | [] => []
  | .poolGet c :: t => c :: poolGets t
  | _ :: t => poolGets t

/-- The backend connections closed, in order. -/
def connCloses {κ : Type} : List (Event κ) → List κ
  | [] => []
  | .connClose c :: t => c :: connCloses t
  | _ :: t => connCloses t

/-- The number of `c.Close()` calls on the client connection. -/
def clientCloses {κ : Type} : List (Event κ) → Nat
  | [] => 0
  | .clientClose :: t => clientCloses t + 1
  | _ :: t => clientCloses t

/-- The reads and the `Process` calls of a trace, other events dropped. -/
def readsAndCalls {κ : Type} : List (Event κ) → List (Event κ)
  | [] => []
  | .readRequest :: t => .readRequest :: readsAndCalls t
  | .process c r :: t => .process c r :: readsAndCalls t
  | _ :: t => readsAndCalls t

/-- An event with the result of a client write forgotten. -/
def forgetWriteResult {κ : Type} : Event κ → Event κ
  | .writeString s _ => .writeString s none
  | .flush _ => .flush none
  | e => e

/-- A read outcome that makes the loop `return`: a non-nil error that is not a
protocol error. -/
def Cycle.fatal (cy : Cycle) : Bool :=
  match cy.err with
  | some (.other _) => true
  | _ => false

/-- A read outcome that carries a parsed request: the error is nil. -/
def Cycle.parsed (cy : Cycle) : Bool :=
  match cy.err with
  | none => true
  | some _ => false

/-- The same outcome with both client writes succeeding. -/
def Cycle.writesOk (cy : Cycle) : Cycle :=
  { cy with wres := none, fres := none }

/-! ## The reply stream as the specification describes it -/

/-- The frame owed to one read outcome, on backend state `s`: the translator's
reply for a request without noreply, nothing for a noreply request, the
`CLIENT_ERROR` frame for an error. -/
def frameOf {π κ σ ρ : Type} (P : Collab π κ σ ρ) (conn : κ) (s : σ) (cy : Cycle) : String :=
  match cy.err with
  | none => if cy.req.Noreply then "" else P.Protocol (P.Process conn s cy.req).1
  | some e => "CLIENT_ERROR " ++ e.Error ++ "\r\n"

/-- The backend state after one read outcome: a parsed request is translated,
an error leaves the backend alone. -/
def backendAfter {π κ σ ρ : Type} (P : Collab π κ σ ρ) (conn : κ) (s : σ) (cy : Cycle) : σ :=
  match cy.err with
  | none => (P.Process conn s cy.req).2
  | some _ => s

/-- One frame per read outcome, in the order received. -/
def expectedFrames {π κ σ ρ : Type} (P : Collab π κ σ ρ) (conn : κ) :
    List Cycle → σ → List String
  | [], _ => []
  | cy :: rest, s => frameOf P conn s cy :: expectedFrames P conn rest (backendAfter P conn s cy)

/-- The reads and `Process` calls owed to a list of read outcomes: one read per
outcome, followed by the call when a request was parsed. -/
def expectedReadsAndCalls {κ : Type} (conn : κ) : List Cycle → List (Event κ)
  | [] => []
  | cy :: rest =>
    (if cy.parsed then [Event.readRequest, Event.process conn cy.req] else [Event.readRequest])
      ++ expectedReadsAndCalls conn rest

/-! ## Sample collaborators -/

/-- A backend that stores the last key set and answers `STORED` or the key. -/
def sampleCollab : Collab Nat Nat (List String) String where
  Get := fun p => (p, p + 1)
  Close := fun _ p => p
  Process := fun _ s r => if r.Command = "set" then ("STORED", r.Key :: s) else (String.join s, s)
  Protocol := fun r => r ++ "\r\n"

/-- A backend whose connection is unusable: `pool.Get()` hands out a connection
marked `false`, every `Process` call fails on it and the failure is what the
translator has to return, a `SERVER_ERROR` response. -/
def brokenCollab : Collab Unit Bool Nat String where
  Get := fun p => (false, p)
  Close := fun _ p => p
  Process := fun c s _ => if c then ("OK", s) else ("SERVER_ERROR broken pipe", s + 1)
  Protocol := fun r => r ++ "\r\n"

/-- A `get` request for a key. -/
def getReq (key : String) : McRequest :=
  { Command := "get", Key := key, Flags := 0, ExpirySeconds := 0, DataLength := 0, Data := [],
    Noreply := false }

/-- A `set` request for a key, with or without noreply. -/
def setReq (key : String) (noreply : Bool) : McRequest :=
  { Command := "set", Key := key, Flags := 0, ExpirySeconds := 0, DataLength := 1, Data := [65],
    Noreply := noreply }

/-- A read that parsed `r`, the writes succeeding. -/
def okCycle (r : McRequest) : Cycle := { req := r, err := none, wres := none, fres := none }

/-- A read that failed with `e`, the writes succeeding. -/
def errCycle (e : GoError) : Cycle :=
  { req := getReq "", err := some e, wres := none, fres := none }

/-- A reply whose `Flush` fails, then a request whose write and flush fail. -/
def failedWrites : List Cycle :=
  [ { req := getReq "a", err := none, wres := none, fres := some (.other "broken pipe") },
    { req := getReq "b", err := none, wres := some (.other "broken pipe"),
      fres := some (.other "broken pipe") } ]

/-- A network where the empty address does not resolve and the host `down` refuses
connections. -/
def sampleNet : Net String Nat where
  ResolveTCPAddr := fun _ addr =>
    if addr = "" then .error (.other "missing address") else .ok addr
  DialTCP := fun _ a =>
    if a = "down:6379" then .error (.other "connection refused") else .ok 3
  SetKeepAlive := fun _ _ => none
  SetKeepAlivePeriod := fun _ _ => none

/-- A backend that accepts the password `secret` only. -/
def sampleRedis : Redis Nat Nat where
  NewConn := fun tc _ _ => tc
  Do := fun _ name args =>
    if name = "AUTH" ∧ args ≠ ["secret"] then some (.other "ERR invalid password") else none

/-- The outcomes of `Accept` when the listener fails once, returning nil with
the error, and a client connects afterwards. -/
def failedAccept : List (AcceptResult Nat) :=
  [ { c := none, err := some (.other "accept tcp: too many open files") },
    { c := some 4, err := none } ]

/-! ## The loop, one iteration at a time -/

theorem loopBody_protocolError {π κ σ ρ : Type} (P : Collab π κ σ ρ) (conn : κ) (cy : Cycle)
    (s : σ) (m : String) (h : cy.err = some (.protocolError m)) :
    loopBody P conn cy s =
      ([.readRequest, .logProtocolErr (.protocolError m),
        .writeString ("CLIENT_ERROR " ++ m ++ "\r\n") cy.wres, .flush cy.fres], s, false) := by
  simp [loopBody, h, GoError.Error]

theorem loopBody_other {π κ σ ρ : Type} (P : Collab π κ σ ρ) (conn : κ) (cy : Cycle)
    (s : σ) (m : String) (h : cy.err = some (.other m)) :
    loopBody P conn cy s = ([.readRequest, .logReadErr (.other m)], s, true) := by
  simp [loopBody, h]

theorem loopBody_noreply {π κ σ ρ : Type} (P : Collab π κ σ ρ) (conn : κ) (cy : Cycle)
    (s : σ) (h : cy.err = none) (hn : cy.req.Noreply = true) :
    loopBody P conn cy s =
      ([.readRequest, .process conn cy.req], (P.Process conn s cy.req).2, false) := by
  simp [loopBody, h, hn]

theorem loopBody_reply {π κ σ ρ : Type} (P : Collab π κ σ ρ) (conn : κ) (cy : Cycle)
    (s : σ) (h : cy.err = none) (hn : cy.req.Noreply = false) :
    loopBody P conn cy s =
      ([.readRequest, .process conn cy.req,
        .writeString (P.Protocol (P.Process conn s cy.req).1) cy.wres, .flush cy.fres],
        (P.Process conn s cy.req).2, false) := by
  simp [loopBody, h, hn]

theorem loop_nil {π κ σ ρ : Type} (P : Collab π κ σ ρ) (conn : κ) (s : σ) :
    loop P conn [] s = { trace := [], backend := s, returned := false } := rfl

theorem loop_cons_continue {π κ σ ρ : Type} (P : Collab π κ σ ρ) (conn : κ) (cy : Cycle)
    (rest : List Cycle) (s s1 : σ) (evs : List (Event κ))
    (h : loopBody P conn cy s = (evs, s1, false)) :
    loop P conn (cy :: rest) s =
      { trace := evs ++ (loop P conn rest s1).trace,
        backend := (loop P conn rest s1).backend,
        returned := (loop P conn rest s1).returned } := by
  simp [loop, h]

theorem loop_cons_return {π κ σ ρ : Type} (P : Collab π κ σ ρ) (conn : κ) (cy : Cycle)
    (rest : List Cycle) (s s1 : σ) (evs : List (Event κ))
    (h : loopBody P conn cy s = (evs, s1, true)) :
    loop P conn (cy :: rest) s = { trace := evs, backend := s1, returned := true } := by
  simp [loop, h]

/-- Running the loop on `pre ++ rest` when it did not return on `pre`: it goes on
with `rest` from the backend state `pre` left. -/
theorem loop_append {π κ σ ρ : Type} (P : Collab π κ σ ρ) (conn : κ) (pre rest : List Cycle)
    (s : σ) (h : (loop P conn pre s).returned = false) :
    loop P conn (pre ++ rest) s =
      { trace := (loop P conn pre s).trace ++ (loop P conn rest (loop P conn pre s).backend).trace,
        backend := (loop P conn rest (loop P conn pre s).backend).backend,
        returned := (loop P conn rest (loop P conn pre s).backend).returned } := by
  induction pre generalizing s with
  | nil => simp [loop]
  | cons cy pre ih =>
    rcases hb : loopBody P conn cy s with ⟨evs, s1, b⟩
    cases b with
    | true => simp [loop, hb] at h
    | false =>
      have h1 : (loop P conn pre s1).returned = false := by
        simpa [loop, hb] using h
      simp [loop, hb, ih s1 h1, List.append_assoc]

theorem processMc_returned {π κ σ ρ : Type} (P : Collab π κ σ ρ) (pool : π) (s : σ)
    (script : List Cycle) :
    (processMc P pool s script).returned = (loop P (P.Get pool).1 script s).returned := by
  unfold processMc
  cases h : (loop P (P.Get pool).1 script s).returned <;> simp [h]

theorem processMc_backend {π κ σ ρ : Type} (P : Collab π κ σ ρ) (pool : π) (s : σ)
    (script : List Cycle) :
    (processMc P pool s script).backend = (loop P (P.Get pool).1 script s).backend := by
  unfold processMc
  cases h : (loop P (P.Get pool).1 script s).returned <;> simp [h]

theorem processMc_running {π κ σ ρ : Type} (P : Collab π κ σ ρ) (pool : π) (s : σ)
    (script : List Cycle) (h : (loop P (P.Get pool).1 script s).returned = false) :
    processMc P pool s script =
      { trace := [.statsConnect, .poolGet (P.Get pool).1] ++ (loop P (P.Get pool).1 script s).trace,
        pool := (P.Get pool).2,
        backend := (loop P (P.Get pool).1 script s).backend,
        returned := false } := by
  simp [processMc, h]

theorem processMc_closed {π κ σ ρ : Type} (P : Collab π κ σ ρ) (pool : π) (s : σ)
    (script : List Cycle) (h : (loop P (P.Get pool).1 script s).returned = true) :
    processMc P pool s script =
      { trace := [.statsConnect, .poolGet (P.Get pool).1] ++ (loop P (P.Get pool).1 script s).trace
          ++ [.connClose (P.Get pool).1, .statsDisconnect, .clientClose, .logEnd],
        pool := P.Close (P.Get pool).1 (P.Get pool).2,
        backend := (loop P (P.Get pool).1 script s).backend,
        returned := true } := by
  simp [processMc, h]

/-! ## Observations and concatenation -/

theorem clientBytes_append {κ : Type} (a b : List (Event κ)) :
    clientBytes (a ++ b) = clientBytes a ++ clientBytes b := by
  induction a with
  | nil => simp [clientBytes]
  | cons e t ih => cases e <;> simp [clientBytes, ih, String.append_assoc]

theorem processCalls_append {κ : Type} (a b : List (Event κ)) :
    processCalls (a ++ b) = processCalls a ++ processCalls b := by
  induction a with
  | nil => simp [processCalls]
  | cons e t ih => cases e <;> simp [processCalls, ih]

theorem poolGets_append {κ : Type} (a b : List (Event κ)) :
    poolGets (a ++ b) = poolGets a ++ poolGets b := by
  induction a with
  | nil => simp [poolGets]
  | cons e t ih => cases e <;> simp [poolGets, ih]

theorem connCloses_append {κ : Type} (a b : List (Event κ)) :
    connCloses (a ++ b) = connCloses a ++ connCloses b := by
  induction a with
  | nil => simp [connCloses]
  | cons e t ih => cases e <;> simp [connCloses, ih]

theorem clientCloses_append {κ : Type} (a b : List (Event κ)) :
    clientCloses (a ++ b) = clientCloses a + clientCloses b := by
  induction a with
  | nil => simp [clientCloses]
  | cons e t ih =>
    cases e <;> simp [clientCloses, ih]
    omega

theorem readsAndCalls_append {κ : Type} (a b : List (Event κ)) :
    readsAndCalls (a ++ b) = readsAndCalls a ++ readsAndCalls b := by
  induction a with
  | nil => simp [readsAndCalls]
  | cons e t ih => cases e <;> simp [readsAndCalls, ih]

/-! ## What the loop never does -/

/-- The four shapes an iteration can take. -/
theorem loopBody_shape {π κ σ ρ : Type} (P : Collab π κ σ ρ) (conn : κ) (cy : Cycle) (s : σ) :
    (∃ m, cy.err = some (.protocolError m) ∧ loopBody P conn cy s =
        ([.readRequest, .logProtocolErr (.protocolError m),
          .writeString ("CLIENT_ERROR " ++ m ++ "\r\n") cy.wres, .flush cy.fres], s, false)) ∨
    (∃ m, cy.err = some (.other m) ∧
        loopBody P conn cy s = ([.readRequest, .logReadErr (.other m)], s, true)) ∨
    (cy.err = none ∧ cy.req.Noreply = true ∧ loopBody P conn cy s =
        ([.readRequest, .process conn cy.req], (P.Process conn s cy.req).2, false)) ∨
    (cy.err = none ∧ cy.req.Noreply = false ∧ loopBody P conn cy s =
        ([.readRequest, .process conn cy.req,
          .writeString (P.Protocol (P.Process conn s cy.req).1) cy.wres, .flush cy.fres],
          (P.Process conn s cy.req).2, false)) := by
  cases he : cy.err with
  | some e =>
    cases e with
    | protocolError m => exact Or.inl ⟨m, rfl, loopBody_protocolError P conn cy s m he⟩
    | other m => exact Or.inr (Or.inl ⟨m, rfl, loopBody_other P conn cy s m he⟩)
  | none =>
    cases hn : cy.req.Noreply with
    | true => exact Or.inr (Or.inr (Or.inl ⟨rfl, rfl, loopBody_noreply P conn cy s he hn⟩))
    | false => exact Or.inr (Or.inr (Or.inr ⟨rfl, rfl, loopBody_reply P conn cy s he hn⟩))

theorem loop_poolGets {π κ σ ρ : Type} (P : Collab π κ σ ρ) (conn : κ) (script : List Cycle)
    (s : σ) : poolGets (loop P conn script s).trace = [] := by
  induction script generalizing s with
  | nil => simp [loop, poolGets]
  | cons cy rest ih =>
    rcases loopBody_shape P conn cy s with ⟨m, _, hb⟩ | ⟨m, _, hb⟩ | ⟨_, _, hb⟩ | ⟨_, _, hb⟩ <;>
      simp [loop, hb, poolGets, ih]

theorem loop_connCloses {π κ σ ρ : Type} (P : Collab π κ σ ρ) (conn : κ) (script : List Cycle)
    (s : σ) : connCloses (loop P conn script s).trace = [] := by
  induction script generalizing s with
  | nil => simp [loop, connCloses]
  | cons cy rest ih =>
    rcases loopBody_shape P conn cy s with ⟨m, _, hb⟩ | ⟨m, _, hb⟩ | ⟨_, _, hb⟩ | ⟨_, _, hb⟩ <;>
      simp [loop, hb, connCloses, ih]

theorem loop_clientCloses {π κ σ ρ : Type} (P : Collab π κ σ ρ) (conn : κ) (script : List Cycle)
    (s : σ) : clientCloses (loop P conn script s).trace = 0 := by
  induction script generalizing s with
  | nil => simp [loop, clientCloses]
  | cons cy rest ih =>
    rcases loopBody_shape P conn cy s with ⟨m, _, hb⟩ | ⟨m, _, hb⟩ | ⟨_, _, hb⟩ | ⟨_, _, hb⟩ <;>
      simp [loop, hb, clientCloses, ih]

/-- Every iteration starts by reading. -/
theorem loop_cons_starts_with_read {π κ σ ρ : Type} (P : Collab π κ σ ρ) (conn : κ) (cy : Cycle)
    (rest : List Cycle) (s : σ) :
    ∃ t, (loop P conn (cy :: rest) s).trace = Event.readRequest :: t := by
  rcases loopBody_shape P conn cy s with ⟨m, _, hb⟩ | ⟨m, _, hb⟩ | ⟨_, _, hb⟩ | ⟨_, _, hb⟩ <;>
    simp [loop, hb]

/-- The loop returns exactly when the script holds a fatal read outcome. -/
theorem loop_returned {π κ σ ρ : Type} (P : Collab π κ σ ρ) (conn : κ) (script : List Cycle)
    (s : σ) : (loop P conn script s).returned = script.any Cycle.fatal := by
  induction script generalizing s with
  | nil => simp [loop]
  | cons cy rest ih =>
    rcases loopBody_shape P conn cy s with ⟨m, he, hb⟩ | ⟨m, he, hb⟩ | ⟨he, _, hb⟩ | ⟨he, _, hb⟩ <;>
      simp [loop, hb, ih, Cycle.fatal, he]

/-- The `Process` calls of the loop: the parsed requests read before the first
fatal outcome, in order, all on `conn`. -/
theorem loop_processCalls {π κ σ ρ : Type} (P : Collab π κ σ ρ) (conn : κ) (script : List Cycle)
    (s : σ) :
    processCalls (loop P conn script s).trace =
      ((script.takeWhile (fun cy => !cy.fatal)).filter Cycle.parsed).map
        (fun cy => (conn, cy.req)) := by
  induction script generalizing s with
  | nil => simp [loop, processCalls]
  | cons cy rest ih =>
    rcases loopBody_shape P conn cy s with ⟨m, he, hb⟩ | ⟨m, he, hb⟩ | ⟨he, _, hb⟩ | ⟨he, _, hb⟩ <;>
      simp [loop, hb, ih, Cycle.fatal, Cycle.parsed, he, processCalls, List.takeWhile]

/-! ## Session-level facts -/

theorem processMc_running_closes {π κ σ ρ : Type} (P : Collab π κ σ ρ) (pool : π) (s : σ)
    (script : List Cycle) (h : (processMc P pool s script).returned = false) :
    connCloses (processMc P pool s script).trace = [] ∧
      clientCloses (processMc P pool s script).trace = 0 := by
  rw [processMc_returned] at h
  rw [processMc_running P pool s script h]
  simp [connCloses_append, clientCloses_append, loop_connCloses, loop_clientCloses,
    connCloses, clientCloses]

/-- A session that has not returned, extended by one iteration that does not
return either. -/
theorem processMc_snoc_continue {π κ σ ρ : Type} (P : Collab π κ σ ρ) (pool : π) (s : σ)
    (pre : List Cycle) (cy : Cycle) (evs : List (Event κ)) (s1 : σ)
    (hpre : (processMc P pool s pre).returned = false)
    (hb : loopBody P (P.Get pool).1 cy (processMc P pool s pre).backend = (evs, s1, false)) :
    processMc P pool s (pre ++ [cy]) =
      { trace := (processMc P pool s pre).trace ++ evs,
        pool := (processMc P pool s pre).pool,
        backend := s1,
        returned := false } := by
  rw [processMc_returned] at hpre
  rw [processMc_backend] at hb
  have hl := loop_append P (P.Get pool).1 pre [cy] s hpre
  rw [loop_cons_continue P (P.Get pool).1 cy [] _ s1 evs hb] at hl
  have hr : (loop P (P.Get pool).1 (pre ++ [cy]) s).returned = false := by
    rw [hl]; simp [loop]
  rw [processMc_running P pool s _ hr, processMc_running P pool s pre hpre, hl]
  simp [loop]

/-- A session that has not returned, extended by a script: the trace so far is
a prefix of the longer trace, followed by a read when the script is not empty. -/
theorem processMc_next_read {π κ σ ρ : Type} (P : Collab π κ σ ρ) (pool : π) (s : σ)
    (pre : List Cycle) (nx : Cycle) (rest : List Cycle)
    (hpre : (processMc P pool s pre).returned = false) :
    (processMc P pool s pre).trace ++ [Event.readRequest] <+:
      (processMc P pool s (pre ++ nx :: rest)).trace := by
  rw [processMc_returned] at hpre
  have hl := loop_append P (P.Get pool).1 pre (nx :: rest) s hpre
  obtain ⟨t, ht⟩ := loop_cons_starts_with_read P (P.Get pool).1 nx rest
    (loop P (P.Get pool).1 pre s).backend
  rw [processMc_running P pool s pre hpre]
  unfold processMc
  simp only [hl, ht]
  split
  · exact ⟨t ++ [.connClose (P.Get pool).1, .statsDisconnect, .clientClose, .logEnd], by simp⟩
  · exact ⟨t, by simp⟩

/-! ## C1: a protocol error is answered and the session goes on -/

/-- C1: in any session that is still running, when `ReadRequest` returns a
protocol error with text `m`, the iteration consists of the read, the log line,
`WriteString` of exactly `"CLIENT_ERROR " ++ m ++ "\r\n"` and `Flush`; `Process`
is not called, the backend and the pool are untouched, the session has not
returned, no connection has been closed, and the next thing done is a read. -/
theorem processMc_protocolError {π κ σ ρ : Type} (P : Collab π κ σ ρ) (pool : π) (s : σ)
    (pre : List Cycle) (cy nx : Cycle) (rest : List Cycle) (m : String)
    (hpre : (processMc P pool s pre).returned = false)
    (hcy : cy.err = some (.protocolError m)) :
    processMc P pool s (pre ++ [cy]) =
        { trace := (processMc P pool s pre).trace ++
            [.readRequest, .logProtocolErr (.protocolError m),
              .writeString ("CLIENT_ERROR " ++ m ++ "\r\n") cy.wres, .flush cy.fres],
          pool := (processMc P pool s pre).pool,
          backend := (processMc P pool s pre).backend,
          returned := false } ∧
      processCalls (processMc P pool s (pre ++ [cy])).trace =
        processCalls (processMc P pool s pre).trace ∧
      connCloses (processMc P pool s (pre ++ [cy])).trace = [] ∧
      clientCloses (processMc P pool s (pre ++ [cy])).trace = 0 ∧
      (processMc P pool s (pre ++ [cy])).trace ++ [Event.readRequest] <+:
        (processMc P pool s ((pre ++ [cy]) ++ nx :: rest)).trace := by
  have h1 := processMc_snoc_continue P pool s pre cy _ _ hpre
    (loopBody_protocolError P (P.Get pool).1 cy _ m hcy)
  have hr : (processMc P pool s (pre ++ [cy])).returned = false := by rw [h1]
  refine ⟨h1, ?_, (processMc_running_closes P pool s _ hr).1,
    (processMc_running_closes P pool s _ hr).2, processMc_next_read P pool s _ nx rest hr⟩
  rw [h1]
  simp [processCalls_append, processCalls]

/-- C1 at a concrete session: a `set` with noreply, then a malformed line. -/
theorem processMc_protocolError_witness :
    (processMc sampleCollab 7 [] [okCycle (setReq "a" true)]).returned = false ∧
    (processMc sampleCollab 7 [] ([okCycle (setReq "a" true)] ++
        [errCycle (.protocolError "bad data chunk")])).trace =
      [.statsConnect, .poolGet 7, .readRequest, .process 7 (setReq "a" true),
        .readRequest, .logProtocolErr (.protocolError "bad data chunk"),
        .writeString "CLIENT_ERROR bad data chunk\r\n" none, .flush none] :=
  ⟨by decide,
    by
      have h := (processMc_protocolError sampleCollab 7 [] [okCycle (setReq "a" true)]
        (errCycle (.protocolError "bad data chunk")) (okCycle (getReq "a")) []
        "bad data chunk" (by decide) rfl).1
      rw [h]
      decide⟩

/-! ## C2: noreply suppresses the reply, not the translation -/

/-- C2: in any session that is still running, a successfully read request is
passed to `Process` exactly once; with `Noreply` set nothing is written for it,
otherwise exactly `Process(req).Protocol()` is written and flushed.  Either way
the backend is left in the state `Process` produced. -/
theorem processMc_request {π κ σ ρ : Type} (P : Collab π κ σ ρ) (pool : π) (s : σ)
    (pre : List Cycle) (cy : Cycle)
    (hpre : (processMc P pool s pre).returned = false)
    (hcy : cy.err = none) :
    processMc P pool s (pre ++ [cy]) =
        { trace := (processMc P pool s pre).trace ++
            (if cy.req.Noreply then
              [.readRequest, .process (P.Get pool).1 cy.req]
            else
              [.readRequest, .process (P.Get pool).1 cy.req,
                .writeString
                  (P.Protocol (P.Process (P.Get pool).1 (processMc P pool s pre).backend cy.req).1)
                  cy.wres,
                .flush cy.fres]),
          pool := (processMc P pool s pre).pool,
          backend := (P.Process (P.Get pool).1 (processMc P pool s pre).backend cy.req).2,
          returned := false } ∧
      processCalls (processMc P pool s (pre ++ [cy])).trace =
        processCalls (processMc P pool s pre).trace ++ [((P.Get pool).1, cy.req)] ∧
      clientBytes (processMc P pool s (pre ++ [cy])).trace =
        clientBytes (processMc P pool s pre).trace ++
          (if cy.req.Noreply then ""
           else P.Protocol
            (P.Process (P.Get pool).1 (processMc P pool s pre).backend cy.req).1) := by
  cases hn : cy.req.Noreply with
  | true =>
    have h1 := processMc_snoc_continue P pool s pre cy _ _ hpre
      (loopBody_noreply P (P.Get pool).1 cy _ hcy hn)
    refine ⟨by simpa using h1, ?_, ?_⟩ <;> rw [h1] <;>
      simp [processCalls_append, processCalls, clientBytes_append, clientBytes]
  | false =>
    have h1 := processMc_snoc_continue P pool s pre cy _ _ hpre
      (loopBody_reply P (P.Get pool).1 cy _ hcy hn)
    refine ⟨by simpa using h1, ?_, ?_⟩ <;> rw [h1] <;>
      simp [processCalls_append, processCalls, clientBytes_append, clientBytes]

/-- C2 at a concrete session: a `set` with noreply writes nothing and the `get`
that follows it sees the stored key. -/
theorem processMc_request_witness :
    (processMc sampleCollab 7 [] []).returned = false ∧
    clientBytes (processMc sampleCollab 7 [] ([] ++ [okCycle (setReq "a" true)])).trace = "" ∧
    (processMc sampleCollab 7 [] ([] ++ [okCycle (setReq "a" true)])).backend = ["a"] ∧
    clientBytes (processMc sampleCollab 7 []
      [okCycle (setReq "a" true), okCycle (getReq "a")]).trace = "a\r\n" :=
  ⟨by decide,
    by
      rw [(processMc_request sampleCollab 7 [] [] (okCycle (setReq "a" true))
        (by decide) rfl).2.2]
      decide,
    by decide, by decide⟩

/-! ## C3: one frame per read outcome, in order -/

theorem join_nil : String.join [] = "" := rfl

theorem join_cons (a : String) (l : List String) :
    String.join (a :: l) = a ++ String.join l := by
  apply String.ext
  simp [String.data_join]

/-- On a script without fatal outcome the loop is back at `ReadRequest`, having
written the expected frames and made the expected reads and calls. -/
theorem loop_nonfatal {π κ σ ρ : Type} (P : Collab π κ σ ρ) (conn : κ) (outs : List Cycle)
    (s : σ) (houts : ∀ cy ∈ outs, cy.fatal = false) :
    (loop P conn outs s).returned = false ∧
      clientBytes (loop P conn outs s).trace = String.join (expectedFrames P conn outs s) ∧
      readsAndCalls (loop P conn outs s).trace = expectedReadsAndCalls conn outs := by
  induction outs generalizing s with
  | nil =>
    simp [loop, clientBytes, expectedFrames, readsAndCalls, expectedReadsAndCalls, join_nil]
  | cons cy rest ih =>
    have hcy : cy.fatal = false := houts cy (List.mem_cons_self _ _)
    have hrest : ∀ c ∈ rest, c.fatal = false := fun c hc => houts c (List.mem_cons_of_mem _ hc)
    rcases loopBody_shape P conn cy s with ⟨m, he, hb⟩ | ⟨m, he, hb⟩ | ⟨he, hn, hb⟩ | ⟨he, hn, hb⟩
    · obtain ⟨h1, h2, h3⟩ := ih s hrest
      simp [loop, hb, h1, h2, h3, clientBytes, clientBytes_append, expectedFrames, frameOf,
        backendAfter, he, join_cons, GoError.Error, readsAndCalls, expectedReadsAndCalls,
        Cycle.parsed]
    · simp [Cycle.fatal, he] at hcy
    · obtain ⟨h1, h2, h3⟩ := ih (P.Process conn s cy.req).2 hrest
      simp [loop, hb, h1, h2, h3, clientBytes, clientBytes_append, expectedFrames, frameOf,
        backendAfter, he, hn, join_cons, readsAndCalls, expectedReadsAndCalls, Cycle.parsed]
    · obtain ⟨h1, h2, h3⟩ := ih (P.Process conn s cy.req).2 hrest
      simp [loop, hb, h1, h2, h3, clientBytes, clientBytes_append, expectedFrames, frameOf,
        backendAfter, he, hn, join_cons, readsAndCalls, expectedReadsAndCalls, Cycle.parsed]

theorem takeWhile_nonfatal (outs : List Cycle) (fin : Cycle) (rest : List Cycle)
    (houts : ∀ cy ∈ outs, cy.fatal = false) (hfin : fin.fatal = true) :
    (outs ++ fin :: rest).takeWhile (fun cy => !cy.fatal) = outs := by
  induction outs with
  | nil => simp [List.takeWhile, hfin]
  | cons cy t ih =>
    have hcy : cy.fatal = false := houts cy (List.mem_cons_self _ _)
    simp [List.takeWhile, hcy, ih (fun c hc => houts c (List.mem_cons_of_mem _ hc))]

theorem fatal_err (fin : Cycle) (hfin : fin.fatal = true) : ∃ m, fin.err = some (.other m) := by
  unfold Cycle.fatal at hfin
  split at hfin
  · exact ⟨_, by assumption⟩
  · simp at hfin

/-- C3: for read outcomes `outs` (parsed requests and protocol errors) ended by
a non-protocol read error `fin`, the session returns; the bytes written to the
client are the concatenation, in the order received, of one frame per outcome
(`Process(req).Protocol()`, nothing for noreply, the `CLIENT_ERROR` frame);
`Process` is called on the parsed requests in that order; and reads and calls
alternate as received, each call made before the next read. -/
theorem processMc_reply_stream {π κ σ ρ : Type} (P : Collab π κ σ ρ) (pool : π) (s : σ)
    (outs : List Cycle) (fin : Cycle)
    (houts : ∀ cy ∈ outs, cy.fatal = false) (hfin : fin.fatal = true) :
    (processMc P pool s (outs ++ [fin])).returned = true ∧
      clientBytes (processMc P pool s (outs ++ [fin])).trace =
        String.join (expectedFrames P (P.Get pool).1 outs s) ∧
      processCalls (processMc P pool s (outs ++ [fin])).trace =
        (outs.filter Cycle.parsed).map (fun cy => ((P.Get pool).1, cy.req)) ∧
      readsAndCalls (processMc P pool s (outs ++ [fin])).trace =
        expectedReadsAndCalls (P.Get pool).1 outs ++ [Event.readRequest] := by
  obtain ⟨h1, h2, h3⟩ := loop_nonfatal P (P.Get pool).1 outs s houts
  obtain ⟨m, hm⟩ := fatal_err fin hfin
  have hl := loop_append P (P.Get pool).1 outs [fin] s h1
  rw [loop_cons_return P (P.Get pool).1 fin [] _ _ _ (loopBody_other P _ fin _ m hm)] at hl
  have hr : (loop P (P.Get pool).1 (outs ++ [fin]) s).returned = true := by rw [hl]
  have hp := loop_processCalls P (P.Get pool).1 (outs ++ [fin]) s
  rw [takeWhile_nonfatal outs fin [] houts hfin] at hp
  rw [processMc_closed P pool s _ hr]
  refine ⟨rfl, ?_, ?_, ?_⟩
  · simp [hl, clientBytes_append, clientBytes, h2]
  · simp [processCalls_append, processCalls, hp]
  · simp [hl, readsAndCalls_append, readsAndCalls, h3]

/-- C3 at a concrete session: set with noreply, a malformed line, a get, then
the input ends. -/
theorem processMc_reply_stream_witness :
    clientBytes (processMc sampleCollab 7 []
      ([okCycle (setReq "a" true), errCycle (.protocolError "bad"), okCycle (getReq "a")] ++
        [errCycle (.other "EOF")])).trace = "CLIENT_ERROR bad\r\na\r\n" := by
  rw [(processMc_reply_stream sampleCollab 7 []
    [okCycle (setReq "a" true), errCycle (.protocolError "bad"), okCycle (getReq "a")]
    (errCycle (.other "EOF")) (by decide) (by decide)).2.1]
  decide

/-! ## C4: a read failure ends the session -/

/-- C4: in any session that is still running, when `ReadRequest` returns an
error that is not a protocol error, the loop returns: nothing is passed to
`Process`, nothing is written, whatever the client sent afterwards is not read,
and the deferred calls close the borrowed backend connection and the client
connection, each exactly once over the whole session. -/
theorem processMc_read_failure {π κ σ ρ : Type} (P : Collab π κ σ ρ) (pool : π) (s : σ)
    (pre : List Cycle) (cy : Cycle) (rest : List Cycle) (m : String)
    (hpre : (processMc P pool s pre).returned = false)
    (hcy : cy.err = some (.other m)) :
    processMc P pool s (pre ++ cy :: rest) =
        { trace := (processMc P pool s pre).trace ++
            [.readRequest, .logReadErr (.other m),
              .connClose (P.Get pool).1, .statsDisconnect, .clientClose, .logEnd],
          pool := P.Close (P.Get pool).1 (processMc P pool s pre).pool,
          backend := (processMc P pool s pre).backend,
          returned := true } ∧
      processCalls (processMc P pool s (pre ++ cy :: rest)).trace =
        processCalls (processMc P pool s pre).trace ∧
      clientBytes (processMc P pool s (pre ++ cy :: rest)).trace =
        clientBytes (processMc P pool s pre).trace ∧
      connCloses (processMc P pool s (pre ++ cy :: rest)).trace = [(P.Get pool).1] ∧
      clientCloses (processMc P pool s (pre ++ cy :: rest)).trace = 1 := by
  have hc := processMc_running_closes P pool s pre hpre
  rw [processMc_returned] at hpre
  have hl := loop_append P (P.Get pool).1 pre (cy :: rest) s hpre
  rw [loop_cons_return P (P.Get pool).1 cy rest _ _ _ (loopBody_other P _ cy _ m hcy)] at hl
  have hr : (loop P (P.Get pool).1 (pre ++ cy :: rest) s).returned = true := by rw [hl]
  have h1 : processMc P pool s (pre ++ cy :: rest) =
      { trace := (processMc P pool s pre).trace ++
          [.readRequest, .logReadErr (.other m),
            .connClose (P.Get pool).1, .statsDisconnect, .clientClose, .logEnd],
        pool := P.Close (P.Get pool).1 (processMc P pool s pre).pool,
        backend := (processMc P pool s pre).backend,
        returned := true } := by
    rw [processMc_closed P pool s _ hr, processMc_running P pool s pre hpre, hl]
    simp
  refine ⟨h1, ?_, ?_, ?_, ?_⟩ <;> rw [h1]
  · simp [processCalls_append, processCalls]
  · simp [clientBytes_append, clientBytes]
  · simp [connCloses_append, connCloses, hc.1]
  · simp [clientCloses_append, clientCloses, hc.2]

/-- C4 at a concrete session: one request, then the client hangs up; the
request scripted after the failure is never read. -/
theorem processMc_read_failure_witness :
    (processMc sampleCollab 7 [] [okCycle (getReq "a")]).returned = false ∧
    (processMc sampleCollab 7 [] ([okCycle (getReq "a")] ++
        errCycle (.other "EOF") :: [okCycle (getReq "b")])).trace =
      [.statsConnect, .poolGet 7, .readRequest, .process 7 (getReq "a"),
        .writeString "\r\n" none, .flush none, .readRequest, .logReadErr (.other "EOF"),
        .connClose 7, .statsDisconnect, .clientClose, .logEnd] :=
  ⟨by decide,
    by
      rw [(processMc_read_failure sampleCollab 7 [] [okCycle (getReq "a")]
        (errCycle (.other "EOF")) [okCycle (getReq "b")] "EOF" (by decide) rfl).1]
      decide⟩

/-! ## C5: what a backend failure does to a session -/

/-- C5 as stated fails: on a backend whose connection is unusable, where every
`Process` call fails, the session is still running after the first request, no
connection has been closed, and the second request is passed to `Process` on
the same connection; the client is sent one `SERVER_ERROR` frame per request. -/
theorem processMc_backend_failure_goes_on :
    processCalls (processMc brokenCollab () 0 [okCycle (getReq "a")]).trace =
        [(false, getReq "a")] ∧
      (processMc brokenCollab () 0 [okCycle (getReq "a")]).returned = false ∧
      connCloses (processMc brokenCollab () 0 [okCycle (getReq "a")]).trace = [] ∧
      clientCloses (processMc brokenCollab () 0 [okCycle (getReq "a")]).trace = 0 ∧
      processCalls (processMc brokenCollab () 0
        [okCycle (getReq "a"), okCycle (getReq "b")]).trace =
        [(false, getReq "a"), (false, getReq "b")] ∧
      clientBytes (processMc brokenCollab () 0
        [okCycle (getReq "a"), okCycle (getReq "b")]).trace =
        "SERVER_ERROR broken pipe\r\nSERVER_ERROR broken pipe\r\n" := by
  decide

/-- C5, amended: whatever connection `pool.Get()` yields and whatever `Process`
returns, the session returns exactly when `ReadRequest` gives a non-protocol
error; every request parsed before that is passed to `Process` on the borrowed
connection; and the borrowed connection and the client connection are closed
once each when the session returns, not before. -/
theorem processMc_ends_on_read_failure_only {π κ σ ρ : Type} (P : Collab π κ σ ρ) (pool : π)
    (s : σ) (script : List Cycle) :
    (processMc P pool s script).returned = script.any Cycle.fatal ∧
      processCalls (processMc P pool s script).trace =
        ((script.takeWhile (fun cy => !cy.fatal)).filter Cycle.parsed).map
          (fun cy => ((P.Get pool).1, cy.req)) ∧
      connCloses (processMc P pool s script).trace =
        (if script.any Cycle.fatal then [(P.Get pool).1] else []) ∧
      clientCloses (processMc P pool s script).trace =
        (if script.any Cycle.fatal then 1 else 0) := by
  have hr := loop_returned P (P.Get pool).1 script s
  have hp := loop_processCalls P (P.Get pool).1 script s
  have hc := loop_connCloses P (P.Get pool).1 script s
  have hk := loop_clientCloses P (P.Get pool).1 script s
  cases hf : script.any Cycle.fatal with
  | true =>
    rw [hf] at hr
    rw [processMc_closed P pool s script hr]
    simp [processCalls_append, processCalls, hp, connCloses_append, connCloses, hc,
      clientCloses_append, clientCloses, hk]
  | false =>
    rw [hf] at hr
    rw [processMc_running P pool s script hr]
    simp [processCalls_append, processCalls, hp, connCloses_append, connCloses, hc,
      clientCloses_append, clientCloses, hk]

/-! ## C6: what a client write failure does to a session -/

/-- C6 as stated fails: the `Flush` of the first reply fails, yet the session is
still running afterwards with no connection closed, the next request is read and
passed to `Process`, and its reply is written although the writer has failed. -/
theorem processMc_write_failure_goes_on :
    (processMc sampleCollab 7 [] (failedWrites.take 1)).trace =
        [.statsConnect, .poolGet 7, .readRequest, .process 7 (getReq "a"),
          .writeString "\r\n" none, .flush (some (.other "broken pipe"))] ∧
      (processMc sampleCollab 7 [] (failedWrites.take 1)).returned = false ∧
      connCloses (processMc sampleCollab 7 [] failedWrites).trace = [] ∧
      clientCloses (processMc sampleCollab 7 [] failedWrites).trace = 0 ∧
      processCalls (processMc sampleCollab 7 [] failedWrites).trace =
        [(7, getReq "a"), (7, getReq "b")] ∧
      (processMc sampleCollab 7 [] failedWrites).returned = false := by
  decide

theorem loopBody_writesOk {π κ σ ρ : Type} (P : Collab π κ σ ρ) (conn : κ) (cy : Cycle) (s : σ) :
    loopBody P conn cy.writesOk s =
      ((loopBody P conn cy s).1.map forgetWriteResult, (loopBody P conn cy s).2.1,
        (loopBody P conn cy s).2.2) := by
  rcases loopBody_shape P conn cy s with ⟨m, he, hb⟩ | ⟨m, he, hb⟩ | ⟨he, hn, hb⟩ | ⟨he, hn, hb⟩
  · rw [hb, loopBody_protocolError P conn cy.writesOk s m (by simpa [Cycle.writesOk] using he)]
    simp [forgetWriteResult, Cycle.writesOk]
  · rw [hb, loopBody_other P conn cy.writesOk s m (by simpa [Cycle.writesOk] using he)]
    simp [forgetWriteResult]
  · rw [hb, loopBody_noreply P conn cy.writesOk s (by simpa [Cycle.writesOk] using he)
      (by simpa [Cycle.writesOk] using hn)]
    simp [forgetWriteResult, Cycle.writesOk]
  · rw [hb, loopBody_reply P conn cy.writesOk s (by simpa [Cycle.writesOk] using he)
      (by simpa [Cycle.writesOk] using hn)]
    simp [forgetWriteResult, Cycle.writesOk]

theorem loop_writesOk {π κ σ ρ : Type} (P : Collab π κ σ ρ) (conn : κ) (script : List Cycle)
    (s : σ) :
    loop P conn (script.map Cycle.writesOk) s =
      { trace := (loop P conn script s).trace.map forgetWriteResult,
        backend := (loop P conn script s).backend,
        returned := (loop P conn script s).returned } := by
  induction script generalizing s with
  | nil => simp [loop]
  | cons cy rest ih =>
    have hw := loopBody_writesOk P conn cy s
    rcases hb : loopBody P conn cy s with ⟨evs, s1, b⟩
    rw [hb] at hw
    cases b with
    | true => simp [loop, hb, hw]
    | false => simp [loop, hb, hw, ih s1]

/-- C6, amended: the results of `WriteString` and `Flush` are discarded.  A
session run with arbitrary write results and the same session run with every
write succeeding make the same calls in the same order (the traces differ only
in the recorded write results), leave the same backend and pool state, and
return or not alike; the session returns exactly when `ReadRequest` gives a
non-protocol error, and the borrowed connection and the client connection are
closed once each then, not before. -/
theorem processMc_ignores_write_results {π κ σ ρ : Type} (P : Collab π κ σ ρ) (pool : π)
    (s : σ) (script : List Cycle) :
    processMc P pool s (script.map Cycle.writesOk) =
        { trace := (processMc P pool s script).trace.map forgetWriteResult,
          pool := (processMc P pool s script).pool,
          backend := (processMc P pool s script).backend,
          returned := (processMc P pool s script).returned } ∧
      (processMc P pool s script).returned = script.any Cycle.fatal ∧
      connCloses (processMc P pool s script).trace =
        (if script.any Cycle.fatal then [(P.Get pool).1] else []) ∧
      clientCloses (processMc P pool s script).trace =
        (if script.any Cycle.fatal then 1 else 0) := by
  have hw := loop_writesOk P (P.Get pool).1 script s
  have hret := loop_returned P (P.Get pool).1 script s
  have hc := loop_connCloses P (P.Get pool).1 script s
  have hk := loop_clientCloses P (P.Get pool).1 script s
  refine ⟨?_, ?_, ?_⟩
  · cases hr : (loop P (P.Get pool).1 script s).returned with
    | true =>
      have hr2 : (loop P (P.Get pool).1 (script.map Cycle.writesOk) s).returned = true := by
        rw [hw]; exact hr
      rw [processMc_closed P pool s _ hr2, processMc_closed P pool s _ hr, hw]
      simp [forgetWriteResult]
    | false =>
      have hr2 : (loop P (P.Get pool).1 (script.map Cycle.writesOk) s).returned = false := by
        rw [hw]; exact hr
      rw [processMc_running P pool s _ hr2, processMc_running P pool s _ hr, hw]
      simp [forgetWriteResult]
  · rw [processMc_returned, loop_returned]
  · cases hf : script.any Cycle.fatal with
    | true =>
      rw [hf] at hret
      rw [processMc_closed P pool s script hret]
      simp [connCloses_append, connCloses, hc, clientCloses_append, clientCloses, hk]
    | false =>
      rw [hf] at hret
      rw [processMc_running P pool s script hret]
      simp [connCloses_append, connCloses, hc, clientCloses_append, clientCloses, hk]

/-! ## C7: connection affinity -/

/-- C7: every session acquires exactly one backend connection, by the `pool.Get()`
that precedes the loop (only `stats.Connect()` comes before it); the loop itself
never acquires or closes a connection whatever the number of requests, and runs
every `Process` call on that connection; the connection is closed exactly once,
by the deferred call after the loop has returned, and not while the session is
running. -/
theorem processMc_connection_affinity {π κ σ ρ : Type} (P : Collab π κ σ ρ) (pool : π)
    (s : σ) (script : List Cycle) :
    ∃ body : List (Event κ),
      (processMc P pool s script).trace =
          [.statsConnect, .poolGet (P.Get pool).1] ++ body ++
            (if (processMc P pool s script).returned then
              [.connClose (P.Get pool).1, .statsDisconnect, .clientClose, .logEnd]
            else []) ∧
        poolGets body = [] ∧ connCloses body = [] ∧
        (∀ c r, (c, r) ∈ processCalls body → c = (P.Get pool).1) ∧
        poolGets (processMc P pool s script).trace = [(P.Get pool).1] ∧
        connCloses (processMc P pool s script).trace =
          (if (processMc P pool s script).returned then [(P.Get pool).1] else []) ∧
        (processMc P pool s script).pool =
          (if (processMc P pool s script).returned then P.Close (P.Get pool).1 (P.Get pool).2
           else (P.Get pool).2) := by
  have hg := loop_poolGets P (P.Get pool).1 script s
  have hc := loop_connCloses P (P.Get pool).1 script s
  have hp := loop_processCalls P (P.Get pool).1 script s
  refine ⟨(loop P (P.Get pool).1 script s).trace, ?_, hg, hc, ?_, ?_, ?_, ?_⟩
  · cases hr : (loop P (P.Get pool).1 script s).returned with
    | true => rw [processMc_closed P pool s script hr]; simp
    | false => rw [processMc_running P pool s script hr]; simp
  · intro c r hmem
    rw [hp] at hmem
    simp only [List.mem_map] at hmem
    obtain ⟨cy, _, hcy⟩ := hmem
    exact (congrArg Prod.fst hcy).symm
  · cases hr : (loop P (P.Get pool).1 script s).returned with
    | true =>
      rw [processMc_closed P pool s script hr]
      simp [poolGets_append, poolGets, hg]
    | false =>
      rw [processMc_running P pool s script hr]
      simp [poolGets_append, poolGets, hg]
  · cases hr : (loop P (P.Get pool).1 script s).returned with
    | true =>
      rw [processMc_closed P pool s script hr]
      simp [connCloses_append, connCloses, hc]
    | false =>
      rw [processMc_running P pool s script hr]
      simp [connCloses_append, connCloses, hc]
  · cases hr : (loop P (P.Get pool).1 script s).returned with
    | true => rw [processMc_closed P pool s script hr]; simp
    | false => rw [processMc_running P pool s script hr]; simp

/-! ## C8: the liveness check on borrow -/

/-- Saturation of `Time.Sub` does not move a duration across one minute. -/
theorem timeSince_lt_Minute (now t : Int) : timeSince now t < Minute ↔ now - t < Minute := by
  unfold timeSince timeSub maxDuration minDuration Minute Second
  split_ifs <;> omega

/-- C8: the `TestOnBorrow` callback built by `newConnPool`, applied to a
connection last used at `t` when the clock reads `now`: if `now - t` is less
than one minute it returns nil and sends nothing; if `now - t` is one minute or
more it sends `PING` once and returns the error of that `PING`; at exactly one
minute it sends `PING`. -/
theorem testOnBorrow_freshness {α τ κ : Type} (N : Net α τ) (R : Redis τ κ)
    (address password : String) (maxIdle maxConnections timeoutSeconds : Int)
    (c : κ) (t now : Int) :
    (now - t < Minute →
        (newConnPool N R address password maxIdle maxConnections timeoutSeconds).TestOnBorrow
          c t now = (none, [])) ∧
      (Minute ≤ now - t →
        (newConnPool N R address password maxIdle maxConnections timeoutSeconds).TestOnBorrow
          c t now = (R.Do c "PING" [], [.cmd c "PING" []])) ∧
      (newConnPool N R address password maxIdle maxConnections timeoutSeconds).TestOnBorrow
          c t (t + Minute) = (R.Do c "PING" [], [.cmd c "PING" []]) := by
  refine ⟨fun h => ?_, fun h => ?_, ?_⟩
  · have h1 := (timeSince_lt_Minute now t).2 h
    simp [newConnPool, h1]
  · have h1 : ¬ timeSince now t < Minute := fun hc => by
      have := (timeSince_lt_Minute now t).1 hc
      omega
    simp [newConnPool, h1]
  · have h1 : ¬ timeSince (t + Minute) t < Minute := fun hc => by
      have := (timeSince_lt_Minute (t + Minute) t).1 hc
      omega
    simp [newConnPool, h1]

/-! ## C9: authentication on dial -/

/-- The steps of `dial`: it fails with the error of the first failing step and
succeeds with the TCP connection when all four succeed. -/
theorem dial_steps {α τ : Type} (N : Net α τ) (network addr : String) :
    (∀ err, N.ResolveTCPAddr network addr = .error err → dial N network addr = .error err) ∧
      (∀ a err, N.ResolveTCPAddr network addr = .ok a → N.DialTCP network a = .error err →
        dial N network addr = .error err) ∧
      (∀ a tc, N.ResolveTCPAddr network addr = .ok a → N.DialTCP network a = .ok tc →
        N.SetKeepAlive tc true = none → N.SetKeepAlivePeriod tc (2 * Minute) = none →
        dial N network addr = .ok tc) := by
  refine ⟨fun err h => ?_, fun a err h1 h2 => ?_, fun a tc h1 h2 h3 h4 => ?_⟩
  · simp [dial, h]
  · simp [dial, h1, h2]
  · simp [dial, h1, h2, h3, h4]

/-- C9: the `Dial` callback built by `newConnPool`.  If `dial` fails (in
particular if resolving or the TCP dial fails) it returns that error and sends
nothing.  If `dial` succeeds and the password is not empty it sends `AUTH` with
the password once; when `AUTH` fails it closes the new connection and returns
the `AUTH` error.  It returns a connection only when `dial` succeeded and either
the password is empty, and then nothing was sent, or `AUTH` succeeded. -/
theorem newConnPool_Dial_authenticates {α τ κ : Type} (N : Net α τ) (R : Redis τ κ)
    (address password : String) (maxIdle maxConnections timeoutSeconds : Int) :
    (∀ err, dial N "tcp" address = .error err →
        (newConnPool N R address password maxIdle maxConnections timeoutSeconds).Dial () =
          (.error err, [])) ∧
      (∀ a err, N.ResolveTCPAddr "tcp" address = .ok a → N.DialTCP "tcp" a = .error err →
        (newConnPool N R address password maxIdle maxConnections timeoutSeconds).Dial () =
          (.error err, [])) ∧
      (∀ tc err, dial N "tcp" address = .ok tc → password ≠ "" →
        R.Do (R.NewConn tc (wrapInt64 (timeoutSeconds * Second))
          (wrapInt64 (timeoutSeconds * Second))) "AUTH" [password] = some err →
        (newConnPool N R address password maxIdle maxConnections timeoutSeconds).Dial () =
          (.error err,
            [.cmd (R.NewConn tc (wrapInt64 (timeoutSeconds * Second))
                (wrapInt64 (timeoutSeconds * Second))) "AUTH" [password],
              .close (R.NewConn tc (wrapInt64 (timeoutSeconds * Second))
                (wrapInt64 (timeoutSeconds * Second)))])) ∧
      (∀ tc, dial N "tcp" address = .ok tc → password ≠ "" →
        R.Do (R.NewConn tc (wrapInt64 (timeoutSeconds * Second))
          (wrapInt64 (timeoutSeconds * Second))) "AUTH" [password] = none →
        (newConnPool N R address password maxIdle maxConnections timeoutSeconds).Dial () =
          (.ok (R.NewConn tc (wrapInt64 (timeoutSeconds * Second))
              (wrapInt64 (timeoutSeconds * Second))),
            [.cmd (R.NewConn tc (wrapInt64 (timeoutSeconds * Second))
                (wrapInt64 (timeoutSeconds * Second))) "AUTH" [password]])) ∧
      (∀ tc, dial N "tcp" address = .ok tc → password = "" →
        (newConnPool N R address password maxIdle maxConnections timeoutSeconds).Dial () =
          (.ok (R.NewConn tc (wrapInt64 (timeoutSeconds * Second))
              (wrapInt64 (timeoutSeconds * Second))), [])) ∧
      (∀ c, ((newConnPool N R address password maxIdle maxConnections timeoutSeconds).Dial ()).1 =
          .ok c →
        ∃ tc, dial N "tcp" address = .ok tc ∧
          c = R.NewConn tc (wrapInt64 (timeoutSeconds * Second))
            (wrapInt64 (timeoutSeconds * Second)) ∧
          ((password = "" ∧
              ((newConnPool N R address password maxIdle maxConnections timeoutSeconds).Dial
                ()).2 = []) ∨
            (password ≠ "" ∧ R.Do c "AUTH" [password] = none ∧
              ((newConnPool N R address password maxIdle maxConnections timeoutSeconds).Dial
                ()).2 = [.cmd c "AUTH" [password]]))) := by
  refine ⟨fun err h => ?_, fun a err h1 h2 => ?_, fun tc err h hp ha => ?_,
    fun tc h hp ha => ?_, fun tc h hp => ?_, fun c hc => ?_⟩
  · simp [newConnPool, h]
  · simp [newConnPool, (dial_steps N "tcp" address).2.1 a err h1 h2]
  · simp [newConnPool, h, hp, ha]
  · simp [newConnPool, h, hp, ha]
  · simp [newConnPool, h, hp]
  · cases hd : dial N "tcp" address with
    | error err => simp [newConnPool, hd] at hc
    | ok tc =>
      refine ⟨tc, rfl, ?_⟩
      by_cases hp : password = ""
      · simp [newConnPool, hd, hp] at hc ⊢
        exact hc.symm
      · cases ha : R.Do (R.NewConn tc (wrapInt64 (timeoutSeconds * Second))
            (wrapInt64 (timeoutSeconds * Second))) "AUTH" [password] with
        | some err => simp [newConnPool, hd, hp, ha] at hc
        | none =>
          simp [newConnPool, hd, hp, ha] at hc
          subst hc
          simp [newConnPool, hd, hp, ha]

/-! ## C10: the accept loop -/

/-- An iteration whose `Accept` failed logs the error and still starts a worker
on the connection value `Accept` returned. -/
theorem acceptBody_error {γ : Type} (r : AcceptResult γ) (e : GoError) (h : r.err = some e) :
    acceptBody r = [.accept, .logPrintln e, .goProcessMc r.c] := by
  simp [acceptBody, h]

/-- The process is ended by a panic exactly when some `Accept` returned nil. -/
theorem mainAcceptLoop_panicked {γ : Type} (rs : List (AcceptResult γ)) :
    (mainAcceptLoop rs).panicked = rs.any (fun r => r.c.isNone) := by
  induction rs with
  | nil => simp [mainAcceptLoop]
  | cons r rest ih =>
    cases hc : r.c with
    | none => simp [mainAcceptLoop, processMcDefers, hc]
    | some conn => simp [mainAcceptLoop, processMcDefers, hc, ih]

/-- While every `Accept` returns a connection, with or without an error, the
loop completes one iteration per outcome, starts one worker per outcome and logs
exactly the errors. -/
theorem mainAcceptLoop_usable {γ : Type} (rs : List (AcceptResult γ))
    (h : ∀ r ∈ rs, r.c.isSome = true) :
    (mainAcceptLoop rs).iterations = rs.length ∧
      (mainAcceptLoop rs).panicked = false ∧
      workers (mainAcceptLoop rs).trace = rs.map (fun r => r.c) ∧
      logged (mainAcceptLoop rs).trace = rs.filterMap (fun r => r.err) := by
  induction rs with
  | nil => simp [mainAcceptLoop, workers, logged]
  | cons r rest ih =>
    obtain ⟨h1, h2, h3, h4⟩ := ih (fun x hx => h x (List.mem_cons_of_mem _ hx))
    have hr := h r (List.mem_cons_self _ _)
    cases hc : r.c with
    | none => simp [hc] at hr
    | some conn =>
      cases he : r.err with
      | none =>
        simp [mainAcceptLoop, processMcDefers, hc, acceptBody, he, workers, logged, h1, h2, h3, h4]
      | some e =>
        simp [mainAcceptLoop, processMcDefers, hc, acceptBody, he, workers, logged, h1, h2, h3, h4]

/-- A failed `Accept` that returns nil, after any run of usable connections: the
error is logged, the worker is started on nil, it panics, and the run is over
whatever `Accept` would have returned next. -/
theorem mainAcceptLoop_nil_ends {γ : Type} (pre rest : List (AcceptResult γ))
    (r : AcceptResult γ) (e : GoError)
    (hpre : ∀ x ∈ pre, x.c.isSome = true) (hc : r.c = none) (he : r.err = some e) :
    mainAcceptLoop (pre ++ r :: rest) =
      { trace := (mainAcceptLoop pre).trace ++
          [.accept, .logPrintln e, .goProcessMc none, .workerLogEnd, .panic],
        iterations := pre.length + 1,
        panicked := true } := by
  induction pre with
  | nil => simp [mainAcceptLoop, processMcDefers, hc, acceptBody, he]
  | cons x pre ih =>
    have hx := hpre x (List.mem_cons_self _ _)
    have ih1 := ih (fun y hy => hpre y (List.mem_cons_of_mem _ hy))
    cases hxc : x.c with
    | none => simp [hxc] at hx
    | some conn => simp [mainAcceptLoop, processMcDefers, hxc, ih1]

/-- C10, at the failing input: `Accept` fails once, returning nil with its
error, and a client connects afterwards.  The loop logs the error and starts a
worker on nil, as the claim says; the worker panics at `defer c.Close()` and the
process ends after one iteration, so the accept loop does terminate on the
`Accept` error and the client that follows is never accepted. -/
theorem mainAcceptLoop_failedAccept :
    mainAcceptLoop failedAccept =
        { trace := [.accept, .logPrintln (.other "accept tcp: too many open files"),
            .goProcessMc none, .workerLogEnd, .panic],
          iterations := 1,
          panicked := true } ∧
      (mainAcceptLoop failedAccept).iterations < failedAccept.length ∧
      workers (mainAcceptLoop failedAccept).trace = [none] := by
  decide

/-! ## The pool callbacks on concrete inputs -/

/-- C8 at concrete instants: one nanosecond short of a minute nothing is sent,
at exactly one minute `PING` is sent. -/
theorem testOnBorrow_freshness_witness :
    (newConnPool sampleNet sampleRedis "redis:6379" "secret" 3 10 5).TestOnBorrow 3 0
        (Minute - 1) = (none, []) ∧
      (newConnPool sampleNet sampleRedis "redis:6379" "secret" 3 10 5).TestOnBorrow 3 0
        Minute = (none, [.cmd 3 "PING" []]) :=
  ⟨(testOnBorrow_freshness sampleNet sampleRedis "redis:6379" "secret" 3 10 5 3 0
      (Minute - 1)).1 (by decide),
    (testOnBorrow_freshness sampleNet sampleRedis "redis:6379" "secret" 3 10 5 3 0
      Minute).2.1 (by decide)⟩

/-- C9 at concrete inputs: a refused dial sends nothing, a wrong password closes
the new connection. -/
theorem newConnPool_Dial_authenticates_witness :
    (newConnPool sampleNet sampleRedis "down:6379" "secret" 3 10 5).Dial () =
        (.error (.other "connection refused"), []) ∧
      (newConnPool sampleNet sampleRedis "redis:6379" "wrong" 3 10 5).Dial () =
        (.error (.other "ERR invalid password"), [.cmd 3 "AUTH" ["wrong"], .close 3]) :=
  ⟨(newConnPool_Dial_authenticates sampleNet sampleRedis "down:6379" "secret" 3 10 5).1
      (.other "connection refused") (by rfl),
    (newConnPool_Dial_authenticates sampleNet sampleRedis "redis:6379" "wrong" 3 10 5).2.2.1
      3 (.other "ERR invalid password") (by rfl) (by decide) (by rfl)⟩

end Mrproxy
